import Mathlib

/-!
# Verification of the invoice app's totals engine and invoice store

Shallow embedding of `src/app.py` (a Streamlit invoicing tool).  Python
floats are modelled as exact rationals (`ℚ`), Python strings as `String`,
dictionaries of line-item fields as a structure with `Option` fields
(`none` = key absent or `None`), and the SQLite database as an explicit
state record threaded through the operations.  Fallible operations return
`Except`.
-/

namespace InvoiceApp

/-- A line item as passed to `compute_totals` / `upsert_invoice`: a Python
dict whose `description`, `quantity` and `unit_price` keys may be absent
or `None` (both modelled as `none`). -/
structure Item where
  description : Option String
  quantity : Option ℚ
  unit_price : Option ℚ
deriving DecidableEq

/-- Round-half-to-even to the nearest integer: the behaviour of Python's
builtin `round` on the (idealised, exact) value of its argument. -/
def rhe (q : ℚ) : ℤ :=
  if q - ⌊q⌋ < 1/2 then ⌊q⌋
  else if 1/2 < q - ⌊q⌋ then ⌊q⌋ + 1
  else if Even ⌊q⌋ then ⌊q⌋ else ⌊q⌋ + 1

/-- `money` (src/app.py line 61): `round((x or 0.0) + 0.0000001, 2)`.
`x or 0.0` is the identity on numbers (it only replaces `0.0` by `0.0`),
so the model adds the epsilon `1e-7` and rounds to 2 decimals. -/
def money (x : ℚ) : ℚ :=
  (rhe ((x + 1/10000000) * 100) : ℚ) / 100

/-- Python `str.strip()` on one side: drop leading whitespace. -/
def stripLeft (l : List Char) : List Char := l.dropWhile (·.isWhitespace)

/-- Python `str.strip()`, modelled on the character list (ASCII
whitespace): drop leading and trailing whitespace. -/
def pyStrip (s : String) : String :=
  ⟨(stripLeft (stripLeft s.data).reverse).reverse⟩

/-- Python `str.lower()`, modelled on the character list (ASCII). -/
def pyLower (s : String) : String := ⟨s.data.map Char.toLower⟩

/-- Python `str.upper()`, modelled on the character list (ASCII). -/
def pyUpper (s : String) : String := ⟨s.data.map Char.toUpper⟩

/-- Python slicing `s[:n]`, modelled on the character list. -/
def pyTake (n : Nat) (s : String) : String := ⟨s.data.take n⟩

/-- `i.get("quantity", 0) or 0`: absent or null quantity read as `0`. -/
def itemQty (i : Item) : ℚ := i.quantity.getD 0

/-- `i.get("unit_price", 0) or 0`: absent or null unit price read as `0`. -/
def itemPrice (i : Item) : ℚ := i.unit_price.getD 0

/-- The raw (pre-rounding) sum `Σ quantity_i * unit_price_i` inside
`compute_totals` (src/app.py line 71). -/
def itemsSum (items : List Item) : ℚ :=
  (items.map (fun i => itemQty i * itemPrice i)).sum

/-- `compute_totals` (src/app.py lines 70-76), returning
`(subtotal, tax_amount, total)`. -/
def compute_totals (items : List Item) (discount tax_rate : ℚ) : ℚ × ℚ × ℚ :=
  let subtotal := money (itemsSum items)
  let discount_amount := money (min (max discount 0) subtotal)
  let taxable := max (subtotal - discount_amount) 0
  let tax_amount := money (taxable * tax_rate / 100)
  let total := money (taxable + tax_amount)
  (subtotal, tax_amount, total)

/-- `new_invoice_number` (src/app.py lines 64-67).  The current date
string (`datetime.now().strftime("%Y%m%d")`) and the random
`uuid.uuid4().hex` string are effects, modelled as explicit inputs
`today` and `uuidHex`.  (`pfx` is the `prefix` parameter, whose name is
reserved in Lean.) -/
def new_invoice_number (pfx today uuidHex : String) : String :=
  pfx ++ "-" ++ today ++ "-" ++ pyUpper (pyTake 6 uuidHex)

/-- A row of the `invoices` table (src/app.py lines 23-38). `created_at`
is a server-set timestamp and is not modelled. -/
structure InvoiceRow where
  id : Nat
  invoice_no : String
  invoice_date : String
  customer_name : String
  customer_email : String
  customer_phone : String
  billing_address : String
  subtotal : ℚ
  discount_amount : ℚ
  tax_rate : ℚ
  tax_amount : ℚ
  total : ℚ
  notes : String
deriving DecidableEq

/-- A row of the `items` table (src/app.py lines 43-51). -/
structure ItemRow where
  id : Nat
  invoice_id : Nat
  description : String
  quantity : ℚ
  unit_price : ℚ
  line_total : ℚ
deriving DecidableEq

/-- The SQLite database state: both tables in insertion (rowid) order,
plus the next AUTOINCREMENT key of each table. -/
structure DB where
  invoices : List InvoiceRow
  items : List ItemRow
  nextInvoiceId : Nat
  nextItemId : Nat
deriving DecidableEq

/-- The freshly initialised database (`init_db`): empty tables,
AUTOINCREMENT keys starting at 1. -/
def emptyDB : DB := ⟨[], [], 1, 1⟩

/-- `sqlite3.IntegrityError` raised by the UNIQUE constraint on
`invoices.invoice_no`. -/
inductive DBErr where
  | uniqueViolation
deriving DecidableEq

/-- One iteration of the item-insertion loop in `upsert_invoice`
(src/app.py lines 117-127). -/
def itemRowOf (invoice_id rowId : Nat) (it : Item) : ItemRow :=
  { id := rowId
    invoice_id := invoice_id
    description := pyStrip (it.description.getD "")
    quantity := itemQty it
    unit_price := itemPrice it
    line_total := money (itemQty it * itemPrice it) }

/-- The item rows inserted by `upsert_invoice` for `items`, with
consecutive AUTOINCREMENT ids starting at `rowId`. -/
def mkItemRows (invoice_id rowId : Nat) : List Item → List ItemRow
  | [] => []
  | it :: rest => itemRowOf invoice_id rowId it :: mkItemRows invoice_id (rowId + 1) rest

/-- The tuple bound into the header INSERT of `upsert_invoice`
(src/app.py lines 101-114), as the row it creates with key `id`. -/
def headerRow (invoice_no invoice_date customer_name customer_email
    customer_phone billing_address : String) (items : List Item)
    (discount_amount tax_rate : ℚ) (notes : String) (id : Nat) : InvoiceRow :=
  let t := compute_totals items discount_amount tax_rate
  { id := id
    invoice_no := invoice_no
    invoice_date := invoice_date
    customer_name := pyStrip customer_name
    customer_email := pyStrip customer_email
    customer_phone := pyStrip customer_phone
    billing_address := pyStrip billing_address
    subtotal := t.1
    discount_amount := discount_amount
    tax_rate := tax_rate
    tax_amount := t.2.1
    total := t.2.2
    notes := pyStrip notes }

/-- `upsert_invoice` (src/app.py lines 79-129).  The UNIQUE constraint on
`invoice_no` makes the header INSERT fail with `sqlite3.IntegrityError`
when the number is already present; the surrounding `with` block then
rolls the transaction back, so the database is unchanged and no item row
is written.  On success the header and all item rows are committed
together and `cur.lastrowid` is returned. -/
def upsert_invoice (invoice_no invoice_date customer_name customer_email
    customer_phone billing_address : String) (items : List Item)
    (discount_amount tax_rate : ℚ) (notes : String) (db : DB) :
    Except DBErr (Nat × DB) :=
  if db.invoices.any (fun r => r.invoice_no == invoice_no) then
    .error .uniqueViolation
  else
    .ok (db.nextInvoiceId,
      { invoices := db.invoices ++
          [headerRow invoice_no invoice_date customer_name customer_email
            customer_phone billing_address items discount_amount tax_rate
            notes db.nextInvoiceId]
        items := db.items ++ mkItemRows db.nextInvoiceId db.nextItemId items
        nextInvoiceId := db.nextInvoiceId + 1
        nextItemId := db.nextItemId + items.length })

/-- An item as returned by `fetch_invoice_full` (src/app.py lines
154-161): the dict built from the selected columns. -/
structure FetchedItem where
  description : String
  quantity : ℚ
  unit_price : ℚ
  line_total : ℚ
deriving DecidableEq

/-- The dict built for one fetched item row (src/app.py line 159). -/
def toFetched (r : ItemRow) : FetchedItem :=
  { description := r.description
    quantity := r.quantity
    unit_price := r.unit_price
    line_total := r.line_total }

/-- `fetch_invoice_full` (src/app.py lines 146-162): the header row with
the given id (`none` models the empty dict for a missing id) and the item
rows of that invoice in rowid (insertion) order. -/
def fetch_invoice_full (invoice_id : Nat) (db : DB) :
    Option InvoiceRow × List FetchedItem :=
  (db.invoices.find? (fun r => r.id == invoice_id),
   (db.items.filter (fun r => r.invoice_id == invoice_id)).map toFetched)

/-- What the Save Invoice button handler reports. -/
inductive SaveOutcome where
  | saved (invoice_id : Nat)
  | emptyItemsError
  | duplicateNumberError
deriving DecidableEq

/-- The Save Invoice button handler (src/app.py lines 346-367): an empty
item list is rejected with an error message before `upsert_invoice` is
called; a `sqlite3.IntegrityError` from `upsert_invoice` is reported as a
duplicate-number error, leaving the database unchanged. -/
def save_invoice_clicked (invoice_no invoice_date customer_name
    customer_email customer_phone billing_address : String)
    (items : List Item) (discount_amount tax_rate : ℚ) (notes : String)
    (db : DB) : SaveOutcome × DB :=
  if items.isEmpty then
    (.emptyItemsError, db)
  else
    match upsert_invoice invoice_no invoice_date customer_name
        customer_email customer_phone billing_address items
        discount_amount tax_rate notes db with
    | .ok (invoice_id, db') => (.saved invoice_id, db')
    | .error .uniqueViolation => (.duplicateNumberError, db)

/-- Database well-formedness: every stored id is below the corresponding
AUTOINCREMENT counter.  Holds for `emptyDB` and is preserved by
`upsert_invoice`. -/
def WF (db : DB) : Prop :=
  (∀ r ∈ db.invoices, r.id < db.nextInvoiceId) ∧
  (∀ r ∈ db.items, r.invoice_id < db.nextInvoiceId)

instance (db : DB) : Decidable (WF db) := by
  unfold WF; infer_instance

/-- One attempted match of a regular-expression pattern at the start of
`s`.  Models Python's `re` semantics for the fragment of patterns the
filter reasoning needs: a pattern that is a sequence of literal
characters and `'.'` wildcards (a `'.'` matches any single character;
any other pattern character matches only itself). -/
def matchHere : List Char → List Char → Bool
  | [], _ => true
  | _ :: _, [] => false
  | p :: ps, c :: cs => (p == '.' || p == c) && matchHere ps cs

/-- `re.search`: try the pattern at every start position of `s`,
including the end of the string. -/
def regexSearch (pat : List Char) : List Char → Bool
  | [] => matchHere pat []
  | c :: cs => matchHere pat (c :: cs) || regexSearch pat cs

/-- `Series.str.contains(q, case=False, na=False)` on one cell
(src/app.py lines 393-398): pandas interprets `q` as a regular
expression (`regex=True` is the default) and searches for it
case-insensitively; `case=False` is modelled by lower-casing both the
pattern and the cell (ASCII).  The cells of our rows are never null, so
`na=False` plays no role. -/
def str_contains_ci (cell q : String) : Bool :=
  regexSearch (pyLower q).data (pyLower cell).data

/-- The text-filter mask of the listing (src/app.py lines 392-399):
logical OR over invoice number, customer name, email and phone. -/
def invoice_matches (q : String) (r : InvoiceRow) : Bool :=
  str_contains_ci r.invoice_no q || str_contains_ci r.customer_name q ||
    str_contains_ci r.customer_email q || str_contains_ci r.customer_phone q

/-- The rows of the listing after the text filter (src/app.py lines
392-399): `if q:` applies the mask only for non-empty search text.
(The listing's ordering and the date filters are outside the claims
about the text filter; membership is what matters here.) -/
def filter_listing (q : String) (db : DB) : List InvoiceRow :=
  if q = "" then db.invoices else db.invoices.filter (invoice_matches q)

/-- Spec-side definition (the claim's words): `needle` occurs as a
substring of `hay`, i.e. `needle` is a prefix of some suffix of `hay`. -/
def isSubOf (needle : List Char) : List Char → Bool
  | [] => needle.isPrefixOf []
  | c :: cs => needle.isPrefixOf (c :: cs) || isSubOf needle cs

/-- Spec-side definition (the claim's words): case-insensitive substring
occurrence. -/
def containsCI (hay needle : String) : Bool :=
  isSubOf (pyLower needle).data (pyLower hay).data

/-- The totals computation exactly as claim C1 words it: the applied
discount is the raw clamp `min (max discount 0) subtotal`, without the
2-decimal rounding the code applies to it (spec-side definition, for
comparison with `compute_totals`). -/
def compute_totals_claimed (items : List Item) (discount tax_rate : ℚ) :
    ℚ × ℚ × ℚ :=
  let subtotal := money (itemsSum items)
  let applied := min (max discount 0) subtotal
  let taxable := subtotal - applied
  let tax_amount := money (taxable * tax_rate / 100)
  let total := money (taxable + tax_amount)
  (subtotal, tax_amount, total)

/-- The metacharacters of Python regular expressions.  A search text
avoiding all of them is matched literally by `re.search`. -/
def regexMetaChars : List Char :=
  ['.', '^', '$', '*', '+', '?', '\x7b', '\x7d', '[', ']', '\\', '|',
   '(', ')']

/-! ## Rounding lemmas -/

/-- The spec's worked example: items [(2, 10), (1, 5)], discount 3, tax
10% give subtotal 25.00, tax 2.20, total 24.20. -/
theorem compute_totals_worked_example :
    compute_totals
      [⟨some "a", some 2, some 10⟩, ⟨some "b", some 1, some 5⟩] 3 10 =
      (25, 11/5, 121/5) := by
  norm_num [compute_totals, money, rhe, itemsSum, itemQty, itemPrice]

theorem rhe_ge_floor (q : ℚ) : ⌊q⌋ ≤ rhe q := by
  unfold rhe; split_ifs <;> omega

theorem rhe_le_floor_add_one (q : ℚ) : rhe q ≤ ⌊q⌋ + 1 := by
  unfold rhe; split_ifs <;> omega

theorem rhe_eq_of_fract_lt_half {q : ℚ} (h : q - ⌊q⌋ < 1/2) : rhe q = ⌊q⌋ := by
  unfold rhe; rw [if_pos h]

theorem rhe_eq_of_half_lt_fract {q : ℚ} (h : 1/2 < q - ⌊q⌋) : rhe q = ⌊q⌋ + 1 := by
  unfold rhe
  rw [if_neg (by linarith), if_pos h]

theorem rhe_mono {a b : ℚ} (hab : a ≤ b) : rhe a ≤ rhe b := by
  have hf : ⌊a⌋ ≤ ⌊b⌋ := Int.floor_mono hab
  rcases eq_or_lt_of_le hf with heq | hlt
  · have h1 : a - (⌊a⌋ : ℚ) ≤ b - (⌊b⌋ : ℚ) := by
      rw [← heq]; linarith
    unfold rhe
    rw [← heq]
    split_ifs <;> first | omega | linarith
  · calc rhe a ≤ ⌊a⌋ + 1 := rhe_le_floor_add_one a
      _ ≤ ⌊b⌋ := by omega
      _ ≤ rhe b := rhe_ge_floor b

theorem money_mono {x y : ℚ} (h : x ≤ y) : money x ≤ money y := by
  unfold money
  have h1 : (x + 1/10000000) * 100 ≤ (y + 1/10000000) * 100 := by linarith
  have h2 := rhe_mono h1
  have h3 : ((rhe ((x + 1/10000000) * 100) : ℤ) : ℚ) ≤
      ((rhe ((y + 1/10000000) * 100) : ℤ) : ℚ) := by exact_mod_cast h2
  linarith

/-- `money` fixes every amount that is a whole number of cents. -/
theorem money_intCast_div (k : ℤ) : money ((k : ℚ) / 100) = (k : ℚ) / 100 := by
  have harg : ((k : ℚ) / 100 + 1/10000000) * 100 = (k : ℚ) + 1/100000 := by ring
  have hfl : ⌊(k : ℚ) + 1/100000⌋ = k := by
    rw [add_comm, Int.floor_add_int]
    norm_num [Int.floor_eq_zero_iff, Set.mem_Ico]
  have hfr : ((k : ℚ) + 1/100000) - (⌊(k : ℚ) + 1/100000⌋ : ℚ) < 1/2 := by
    rw [hfl]; norm_num
  unfold money
  rw [harg, rhe_eq_of_fract_lt_half hfr, hfl]

/-- Every result of `money` is a whole number of cents. -/
theorem money_eq_intCast_div (x : ℚ) :
    money x = ((rhe ((x + 1/10000000) * 100) : ℤ) : ℚ) / 100 := rfl

theorem money_money (x : ℚ) : money (money x) = money x :=
  money_intCast_div _

/-- The rounded clamped discount never exceeds an already-rounded
subtotal. -/
theorem money_clamp_le (d x : ℚ) :
    money (min (max d 0) (money x)) ≤ money x := by
  calc money (min (max d 0) (money x)) ≤ money (money x) :=
        money_mono (min_le_right _ _)
    _ = money x := money_money x

/-! ## Store lemmas -/

/-- Inversion of a successful save: the invoice number was free, the new
id is the AUTOINCREMENT key, and the new state appends the header row and
the item rows. -/
theorem upsert_eq_ok {invoice_no invoice_date customer_name customer_email
    customer_phone billing_address : String} {items : List Item}
    {discount_amount tax_rate : ℚ} {notes : String} {db : DB} {iid : Nat}
    {db' : DB}
    (h : upsert_invoice invoice_no invoice_date customer_name customer_email
      customer_phone billing_address items discount_amount tax_rate notes db =
      .ok (iid, db')) :
    db.invoices.any (fun r => r.invoice_no == invoice_no) = false ∧
    iid = db.nextInvoiceId ∧
    db' = { invoices := db.invoices ++
              [headerRow invoice_no invoice_date customer_name customer_email
                customer_phone billing_address items discount_amount tax_rate
                notes db.nextInvoiceId]
            items := db.items ++ mkItemRows db.nextInvoiceId db.nextItemId items
            nextInvoiceId := db.nextInvoiceId + 1
            nextItemId := db.nextItemId + items.length } := by
  unfold upsert_invoice at h
  split at h
  · exact absurd h (by simp)
  · rename_i hc
    simp only [Except.ok.injEq, Prod.mk.injEq] at h
    exact ⟨Bool.not_eq_true _ ▸ hc, h.1.symm, h.2.symm⟩

theorem mkItemRows_invoice_id (iid : Nat) :
    ∀ (s : Nat) (items : List Item), ∀ r ∈ mkItemRows iid s items,
      r.invoice_id = iid := by
  intro s items
  induction items generalizing s with
  | nil => intro r hr; cases hr
  | cons it rest ih =>
    intro r hr
    rcases List.mem_cons.mp hr with h | h
    · subst h; rfl
    · exact ih _ r h

theorem map_toFetched_mkItemRows (iid : Nat) :
    ∀ (s : Nat) (items : List Item),
      (mkItemRows iid s items).map toFetched =
        items.map (fun it => toFetched (itemRowOf iid 0 it)) := by
  intro s items
  induction items generalizing s with
  | nil => rfl
  | cons it rest ih =>
    simp only [mkItemRows, List.map_cons, ih]
    rfl

/-- Round trip: fetching a freshly saved invoice returns its header row
and exactly its item rows, in insertion order. -/
theorem fetch_after_upsert {invoice_no invoice_date customer_name
    customer_email customer_phone billing_address : String}
    {items : List Item} {discount_amount tax_rate : ℚ} {notes : String}
    {db : DB} {iid : Nat} {db' : DB} (hwf : WF db)
    (h : upsert_invoice invoice_no invoice_date customer_name customer_email
      customer_phone billing_address items discount_amount tax_rate notes db =
      .ok (iid, db')) :
    fetch_invoice_full iid db' =
      (some (headerRow invoice_no invoice_date customer_name customer_email
        customer_phone billing_address items discount_amount tax_rate notes
        iid),
       items.map (fun it => toFetched (itemRowOf iid 0 it))) := by
  obtain ⟨-, hiid, hdb⟩ := upsert_eq_ok h
  subst hiid hdb
  unfold fetch_invoice_full
  rw [Prod.mk.injEq]
  refine ⟨?_, ?_⟩
  · rw [List.find?_append]
    have hnone : db.invoices.find?
        (fun r => r.id == db.nextInvoiceId) = none := by
      rw [List.find?_eq_none]
      intro r hr
      have := hwf.1 r hr
      simp only [beq_iff_eq]
      omega
    rw [hnone, Option.none_or]
    simp [headerRow, List.find?]
  · rw [List.filter_append]
    have hnil : db.items.filter
        (fun r => r.invoice_id == db.nextInvoiceId) = [] := by
      rw [List.filter_eq_nil_iff]
      intro r hr
      have := hwf.2 r hr
      simp only [beq_iff_eq]
      omega
    have hall : (mkItemRows db.nextInvoiceId db.nextItemId items).filter
        (fun r => r.invoice_id == db.nextInvoiceId) =
        mkItemRows db.nextInvoiceId db.nextItemId items := by
      rw [List.filter_eq_self]
      intro r hr
      simp only [beq_iff_eq]
      exact mkItemRows_invoice_id _ _ _ r hr
    rw [hnil, hall, List.nil_append, map_toFetched_mkItemRows]

/-- C2: saving an invoice whose number already exists fails with the
unique-constraint violation, the store is unchanged (the handler keeps
the old state; nothing of the failed save is persisted), and of two
saves with the same invoice number it is the second that fails. -/
theorem duplicate_invoice_no_second_save_fails
    {invoice_no d1 n1 e1 p1 a1 : String} {items1 : List Item}
    {disc1 rate1 : ℚ} {notes1 : String}
    {d2 n2 e2 p2 a2 : String} {it2 : Item} {rest2 : List Item}
    {disc2 rate2 : ℚ} {notes2 : String} {db : DB} {iid : Nat} {db' : DB}
    (h : upsert_invoice invoice_no d1 n1 e1 p1 a1 items1 disc1 rate1 notes1
      db = .ok (iid, db')) :
    upsert_invoice invoice_no d2 n2 e2 p2 a2 (it2 :: rest2) disc2 rate2
      notes2 db' = .error .uniqueViolation ∧
    save_invoice_clicked invoice_no d2 n2 e2 p2 a2 (it2 :: rest2) disc2
      rate2 notes2 db' = (.duplicateNumberError, db') := by
  obtain ⟨-, -, hdb⟩ := upsert_eq_ok h
  have hdup : db'.invoices.any (fun r => r.invoice_no == invoice_no) = true := by
    subst hdb
    simp [List.any_append, headerRow]
  have herr : upsert_invoice invoice_no d2 n2 e2 p2 a2 (it2 :: rest2) disc2
      rate2 notes2 db' = .error .uniqueViolation := by
    unfold upsert_invoice
    rw [if_pos hdup]
  refine ⟨herr, ?_⟩
  unfold save_invoice_clicked
  rw [if_neg (by simp)]
  rw [herr]

theorem mkItemRows_map_description (iid : Nat) :
    ∀ (s : Nat) (items : List Item),
      (mkItemRows iid s items).map ItemRow.description =
        items.map (fun it => pyStrip (it.description.getD "")) := by
  intro s items
  induction items generalizing s with
  | nil => rfl
  | cons it rest ih => simp only [mkItemRows, List.map_cons, ih]; rfl

/-- C5: a save attempt with an empty item list is rejected before any
persistence attempt: the handler reports the error and the store is
completely unchanged. -/
theorem empty_item_list_save_rejected (invoice_no invoice_date
    customer_name customer_email customer_phone billing_address : String)
    (discount_amount tax_rate : ℚ) (notes : String) (db : DB) :
    save_invoice_clicked invoice_no invoice_date customer_name
      customer_email customer_phone billing_address [] discount_amount
      tax_rate notes db = (.emptyItemsError, db) := rfl

/-- C4 (amended): the persisted `discount_amount` is the requested
discount exactly as supplied — not the clamped discount used in the
totals — so it can exceed the persisted subtotal. -/
theorem persisted_discount_is_raw_request {invoice_no invoice_date
    customer_name customer_email customer_phone billing_address : String}
    {items : List Item} {discount_amount tax_rate : ℚ} {notes : String}
    {db : DB} {iid : Nat} {db' : DB}
    (h : upsert_invoice invoice_no invoice_date customer_name customer_email
      customer_phone billing_address items discount_amount tax_rate notes db =
      .ok (iid, db')) :
    ∃ row, db'.invoices = db.invoices ++ [row] ∧
      row.discount_amount = discount_amount ∧
      row.subtotal = money (itemsSum items) := by
  obtain ⟨-, -, hdb⟩ := upsert_eq_ok h
  subst hdb
  exact ⟨_, rfl, rfl, rfl⟩

/-- C10: every persisted text field is the supplied string stripped of
leading and trailing whitespace (item descriptions defaulting to `""`
when absent), and nothing else is changed about them. -/
theorem stored_text_fields_stripped {invoice_no invoice_date customer_name
    customer_email customer_phone billing_address : String}
    {items : List Item} {discount_amount tax_rate : ℚ} {notes : String}
    {db : DB} {iid : Nat} {db' : DB}
    (h : upsert_invoice invoice_no invoice_date customer_name customer_email
      customer_phone billing_address items discount_amount tax_rate notes db =
      .ok (iid, db')) :
    ∃ row irows, db'.invoices = db.invoices ++ [row] ∧
      db'.items = db.items ++ irows ∧
      row.customer_name = pyStrip customer_name ∧
      row.customer_email = pyStrip customer_email ∧
      row.customer_phone = pyStrip customer_phone ∧
      row.billing_address = pyStrip billing_address ∧
      row.notes = pyStrip notes ∧
      irows.map ItemRow.description =
        items.map (fun it => pyStrip (it.description.getD "")) := by
  obtain ⟨-, -, hdb⟩ := upsert_eq_ok h
  subst hdb
  exact ⟨_, _, rfl, rfl, rfl, rfl, rfl, rfl, rfl,
    mkItemRows_map_description _ _ _⟩

/-- C3 (amended): fetching a freshly saved invoice returns the supplied
header fields — text fields whitespace-stripped, derived amounts from
`compute_totals`, discount and tax rate as supplied — and one fetched
item per supplied item, in the order supplied, with stripped description,
absent numeric fields read as `0`, and the derived rounded line total. -/
theorem fetch_returns_saved_invoice {invoice_no invoice_date customer_name
    customer_email customer_phone billing_address : String}
    {items : List Item} {discount_amount tax_rate : ℚ} {notes : String}
    {db : DB} {iid : Nat} {db' : DB} (hwf : WF db)
    (h : upsert_invoice invoice_no invoice_date customer_name customer_email
      customer_phone billing_address items discount_amount tax_rate notes db =
      .ok (iid, db')) :
    ∃ row, fetch_invoice_full iid db' =
        (some row,
         items.map (fun it =>
           ({ description := pyStrip (it.description.getD "")
              quantity := itemQty it
              unit_price := itemPrice it
              line_total := money (itemQty it * itemPrice it) } :
             FetchedItem))) ∧
      row.invoice_no = invoice_no ∧
      row.invoice_date = invoice_date ∧
      row.customer_name = pyStrip customer_name ∧
      row.customer_email = pyStrip customer_email ∧
      row.customer_phone = pyStrip customer_phone ∧
      row.billing_address = pyStrip billing_address ∧
      row.notes = pyStrip notes ∧
      row.discount_amount = discount_amount ∧
      row.tax_rate = tax_rate ∧
      row.subtotal = (compute_totals items discount_amount tax_rate).1 ∧
      row.tax_amount = (compute_totals items discount_amount tax_rate).2.1 ∧
      row.total = (compute_totals items discount_amount tax_rate).2.2 := by
  refine ⟨_, fetch_after_upsert hwf h, rfl, rfl, rfl, rfl, rfl, rfl, rfl,
    rfl, rfl, ?_, ?_, ?_⟩ <;> rfl

theorem money_zero : money 0 = 0 := by norm_num [money, rhe]

theorem money_two : money 2 = 2 := by norm_num [money, rhe]

theorem money_ten : money 10 = 10 := by norm_num [money, rhe]

/-- Witness for C2 at a concrete pair of saves of invoice number "X". -/
theorem duplicate_invoice_no_second_save_fails_witness :
    upsert_invoice "X" "d2" "n2" "e2" "p2" "a2" [⟨some "j", some 2, some 3⟩]
      0 0 "m"
      ⟨[⟨1, "X", "d", "n", "e", "p", "a", 10, 0, 0, 0, 10, "no"⟩],
       [⟨1, 1, "i", 1, 10, 10⟩], 2, 2⟩ = .error .uniqueViolation ∧
    save_invoice_clicked "X" "d2" "n2" "e2" "p2" "a2"
      [⟨some "j", some 2, some 3⟩] 0 0 "m"
      ⟨[⟨1, "X", "d", "n", "e", "p", "a", 10, 0, 0, 0, 10, "no"⟩],
       [⟨1, 1, "i", 1, 10, 10⟩], 2, 2⟩ =
      (.duplicateNumberError,
       ⟨[⟨1, "X", "d", "n", "e", "p", "a", 10, 0, 0, 0, 10, "no"⟩],
        [⟨1, 1, "i", 1, 10, 10⟩], 2, 2⟩) :=
  have h : upsert_invoice "X" "d" "n" "e" "p" "a"
      [⟨some "i", some 1, some 10⟩] 0 0 "no" emptyDB =
      .ok (1, ⟨[⟨1, "X", "d", "n", "e", "p", "a", 10, 0, 0, 0, 10, "no"⟩],
               [⟨1, 1, "i", 1, 10, 10⟩], 2, 2⟩) := by
    simp [upsert_invoice, headerRow, compute_totals, itemsSum, itemQty,
      itemPrice, mkItemRows, itemRowOf, emptyDB, money_zero, money_ten,
      pyStrip, stripLeft]
  duplicate_invoice_no_second_save_fails h

/-- Counterexample for C4: requesting discount 999 on a subtotal of 10
persists `discount_amount = 999`, which is not the applied clamp
`min (max 999 0) 10 = 10` and exceeds the persisted subtotal. -/
theorem persisted_discount_cex :
    upsert_invoice "X" "d" "n" "e" "p" "a" [⟨some "i", some 1, some 10⟩]
      999 0 "no" emptyDB =
      .ok (1, ⟨[⟨1, "X", "d", "n", "e", "p", "a", 10, 999, 0, 0, 0, "no"⟩],
               [⟨1, 1, "i", 1, 10, 10⟩], 2, 2⟩) ∧
    (999 : ℚ) ≠ min (max (999 : ℚ) 0) 10 ∧ (10 : ℚ) < 999 := by
  refine ⟨?_, by norm_num, by norm_num⟩
  simp [upsert_invoice, headerRow, compute_totals, itemsSum, itemQty,
    itemPrice, mkItemRows, itemRowOf, emptyDB, money_zero, money_ten,
    pyStrip, stripLeft]
  norm_num [money, rhe]

/-- Witness for C4 (amended) at a concrete save. -/
theorem persisted_discount_is_raw_request_witness :
    ∃ row,
      (⟨[⟨1, "Y", "d", "n", "e", "p", "a", 10, 999, 0, 0, 0, "no"⟩],
        [⟨1, 1, "i", 1, 10, 10⟩], 2, 2⟩ : DB).invoices =
        emptyDB.invoices ++ [row] ∧
      row.discount_amount = 999 ∧
      row.subtotal = money (itemsSum [⟨some "i", some 1, some 10⟩]) :=
  have h : upsert_invoice "Y" "d" "n" "e" "p" "a"
      [⟨some "i", some 1, some 10⟩] 999 0 "no" emptyDB =
      .ok (1, ⟨[⟨1, "Y", "d", "n", "e", "p", "a", 10, 999, 0, 0, 0, "no"⟩],
               [⟨1, 1, "i", 1, 10, 10⟩], 2, 2⟩) := by
    simp [upsert_invoice, headerRow, compute_totals, itemsSum, itemQty,
      itemPrice, mkItemRows, itemRowOf, emptyDB, money_zero, money_ten,
      pyStrip, stripLeft]
    norm_num [money, rhe]
  persisted_discount_is_raw_request h

/-- Witness for C10 at a concrete save with whitespace around every text
field. -/
theorem stored_text_fields_stripped_witness :
    ∃ row irows,
      (⟨[⟨1, "Z", "d", "Jo", "e@x", "55", "Ad", 2, 0, 0, 0, 2, "nt"⟩],
        [⟨1, 1, "it", 1, 2, 2⟩], 2, 2⟩ : DB).invoices =
        emptyDB.invoices ++ [row] ∧
      (⟨[⟨1, "Z", "d", "Jo", "e@x", "55", "Ad", 2, 0, 0, 0, 2, "nt"⟩],
        [⟨1, 1, "it", 1, 2, 2⟩], 2, 2⟩ : DB).items =
        emptyDB.items ++ irows ∧
      row.customer_name = pyStrip " Jo " ∧
      row.customer_email = pyStrip " e@x " ∧
      row.customer_phone = pyStrip " 55 " ∧
      row.billing_address = pyStrip " Ad " ∧
      row.notes = pyStrip " nt " ∧
      irows.map ItemRow.description =
        ([⟨some " it ", some 1, some 2⟩] : List Item).map
          (fun it => pyStrip (it.description.getD "")) :=
  have h : upsert_invoice "Z" "d" " Jo " " e@x " " 55 " " Ad "
      [⟨some " it ", some 1, some 2⟩] 0 0 " nt " emptyDB =
      .ok (1, ⟨[⟨1, "Z", "d", "Jo", "e@x", "55", "Ad", 2, 0, 0, 0, 2, "nt"⟩],
               [⟨1, 1, "it", 1, 2, 2⟩], 2, 2⟩) := by
    simp [upsert_invoice, headerRow, compute_totals, itemsSum, itemQty,
      itemPrice, mkItemRows, itemRowOf, emptyDB, money_zero, money_two,
      pyStrip, stripLeft]
  stored_text_fields_stripped h

/-- Counterexample for C1: with one item of quantity 1 and unit price 10,
a requested discount of 0.005 and a 10% tax rate, the code first rounds
the clamped discount to 0.01, giving total 10.99, while the claim's
unrounded applied discount 0.005 would give total 11.00. -/
theorem compute_totals_rounds_applied_discount_cex :
    compute_totals [⟨some "i", some 1, some 10⟩] (1/200) 10 =
      (10, 1, 1099/100) ∧
    compute_totals_claimed [⟨some "i", some 1, some 10⟩] (1/200) 10 =
      (10, 1, 11) ∧
    (1099/100 : ℚ) ≠ 11 := by
  refine ⟨?_, ?_, by norm_num⟩ <;>
    norm_num [compute_totals, compute_totals_claimed, money, rhe,
      itemsSum, itemQty, itemPrice]

/-- C1 (amended): `compute_totals` returns the rounded subtotal (missing
or null quantity/price read as zero), applies the discount
`round2 (clamp requested 0 subtotal)`, and the taxable amount
`subtotal - applied` is never negative (the code's clipping of it to 0
never fires); tax and total are the rounded derived amounts. -/
theorem compute_totals_spec (items : List Item) (discount tax_rate : ℚ) :
    0 ≤ money (itemsSum items) -
      money (min (max discount 0) (money (itemsSum items))) ∧
    compute_totals items discount tax_rate =
      (money (itemsSum items),
       money ((money (itemsSum items) -
         money (min (max discount 0) (money (itemsSum items)))) *
           tax_rate / 100),
       money ((money (itemsSum items) -
          money (min (max discount 0) (money (itemsSum items)))) +
         money ((money (itemsSum items) -
           money (min (max discount 0) (money (itemsSum items)))) *
             tax_rate / 100))) := by
  have hle : money (min (max discount 0) (money (itemsSum items))) ≤
      money (itemsSum items) := money_clamp_le _ _
  refine ⟨by linarith, ?_⟩
  simp only [compute_totals]
  rw [max_eq_left (by linarith)]

/-- C6: adding the epsilon before rounding gives a deterministic upward
bias at the half-cent boundary: every amount `k/100 + 5/1000` rounds up
to `(k+1)/100`, whereas banker's rounding of the unadjusted value keeps
every even `k` — so the code's rule is not round-half-to-even. -/
theorem money_upward_bias_at_half_cent (k : ℤ) :
    money ((k : ℚ)/100 + 5/1000) = ((k : ℚ) + 1)/100 ∧
    (Even k → rhe (((k : ℚ)/100 + 5/1000) * 100) = k) := by
  constructor
  · unfold money
    have harg : (((k : ℚ)/100 + 5/1000) + 1/10000000) * 100 =
        (k : ℚ) + 50001/100000 := by ring
    rw [harg]
    have hfl : ⌊(k : ℚ) + 50001/100000⌋ = k := by
      rw [add_comm, Int.floor_add_int]
      norm_num [Int.floor_eq_zero_iff, Set.mem_Ico]
    have hfr : 1/2 < ((k : ℚ) + 50001/100000) -
        (⌊(k : ℚ) + 50001/100000⌋ : ℚ) := by
      rw [hfl]
      linarith
    rw [rhe_eq_of_half_lt_fract hfr, hfl]
    push_cast
    ring
  · intro hk
    have harg2 : ((k : ℚ)/100 + 5/1000) * 100 = (k : ℚ) + 1/2 := by ring
    have hfl2 : ⌊(k : ℚ) + 1/2⌋ = k := by
      rw [add_comm, Int.floor_add_int]
      norm_num [Int.floor_eq_zero_iff, Set.mem_Ico]
    rw [harg2]
    unfold rhe
    rw [hfl2]
    rw [if_neg (by linarith), if_neg (by linarith), if_pos hk]

/-- Witness for C6 at the concrete boundary amount 0.025. -/
theorem money_upward_bias_at_half_cent_witness :
    money (((2 : ℤ) : ℚ)/100 + 5/1000) = (((2 : ℤ) : ℚ) + 1)/100 ∧
    Even (2 : ℤ) ∧
    rhe ((((2 : ℤ) : ℚ)/100 + 5/1000) * 100) = 2 :=
  ⟨(money_upward_bias_at_half_cent 2).1, by decide,
   (money_upward_bias_at_half_cent 2).2 (by decide)⟩

/-- C9: with the item list and discount fixed, the tax amount computed by
`compute_totals` is monotone in the tax rate. -/
theorem tax_amount_monotone_in_rate (items : List Item) (discount : ℚ)
    {r1 r2 : ℚ} (h : r1 ≤ r2) :
    (compute_totals items discount r1).2.1 ≤
      (compute_totals items discount r2).2.1 := by
  simp only [compute_totals]
  apply money_mono
  have ht : 0 ≤ max (money (itemsSum items) -
      money (min (max discount 0) (money (itemsSum items)))) 0 :=
    le_max_right _ _
  have := mul_le_mul_of_nonneg_left h ht
  linarith

/-- Witness for C9 at rates 5 and 10 over one item of price 10. -/
theorem tax_amount_monotone_in_rate_witness :
    (5 : ℚ) ≤ 10 ∧
    (compute_totals [⟨some "i", some 1, some 10⟩] 0 5).2.1 ≤
      (compute_totals [⟨some "i", some 1, some 10⟩] 0 10).2.1 :=
  ⟨by norm_num, tax_amount_monotone_in_rate _ 0 (by norm_num)⟩

/-- Counterexample for C3: a save supplying customer name " John " and
item description " a " retrieves "John" and "a" — the stored text is
whitespace-stripped, so retrieval does not return the supplied strings. -/
theorem fetch_returns_saved_invoice_cex :
    upsert_invoice "X" "dte" " John " "e" "p" "a"
      [⟨some " a ", some 1, some 2⟩] 0 0 "n" emptyDB =
      .ok (1, ⟨[⟨1, "X", "dte", "John", "e", "p", "a", 2, 0, 0, 0, 2, "n"⟩],
               [⟨1, 1, "a", 1, 2, 2⟩], 2, 2⟩) ∧
    (fetch_invoice_full 1
        ⟨[⟨1, "X", "dte", "John", "e", "p", "a", 2, 0, 0, 0, 2, "n"⟩],
         [⟨1, 1, "a", 1, 2, 2⟩], 2, 2⟩).1.map InvoiceRow.customer_name =
      some "John" ∧
    (fetch_invoice_full 1
        ⟨[⟨1, "X", "dte", "John", "e", "p", "a", 2, 0, 0, 0, 2, "n"⟩],
         [⟨1, 1, "a", 1, 2, 2⟩], 2, 2⟩).2.map FetchedItem.description =
      ["a"] ∧
    some "John" ≠ some " John " ∧ (["a"] : List String) ≠ [" a "] := by
  refine ⟨?_, by decide, by decide, by decide, by decide⟩
  simp [upsert_invoice, headerRow, compute_totals, itemsSum, itemQty,
    itemPrice, mkItemRows, itemRowOf, emptyDB, money_zero, money_two,
    pyStrip, stripLeft]

/-- Witness for C3 (amended) at a concrete save on the empty store. -/
theorem fetch_returns_saved_invoice_witness :
    ∃ row,
      fetch_invoice_full 1
          ⟨[⟨1, "W", "dt", "Ann", "em", "ph", "ad", 6, 1, 0, 0, 5, "nn"⟩],
           [⟨1, 1, "x", 2, 3, 6⟩], 2, 2⟩ =
        (some row,
         ([⟨some " x ", some 2, some 3⟩] : List Item).map (fun it =>
           ({ description := pyStrip (it.description.getD "")
              quantity := itemQty it
              unit_price := itemPrice it
              line_total := money (itemQty it * itemPrice it) } :
             FetchedItem))) ∧
      row.invoice_no = "W" ∧
      row.invoice_date = "dt" ∧
      row.customer_name = pyStrip " Ann " ∧
      row.customer_email = pyStrip "em" ∧
      row.customer_phone = pyStrip "ph" ∧
      row.billing_address = pyStrip "ad" ∧
      row.notes = pyStrip " nn " ∧
      row.discount_amount = 1 ∧
      row.tax_rate = 0 ∧
      row.subtotal = (compute_totals [⟨some " x ", some 2, some 3⟩] 1 0).1 ∧
      row.tax_amount =
        (compute_totals [⟨some " x ", some 2, some 3⟩] 1 0).2.1 ∧
      row.total = (compute_totals [⟨some " x ", some 2, some 3⟩] 1 0).2.2 :=
  have h : upsert_invoice "W" "dt" " Ann " "em" "ph" "ad"
      [⟨some " x ", some 2, some 3⟩] 1 0 " nn " emptyDB =
      .ok (1, ⟨[⟨1, "W", "dt", "Ann", "em", "ph", "ad", 6, 1, 0, 0, 5, "nn"⟩],
               [⟨1, 1, "x", 2, 3, 6⟩], 2, 2⟩) := by
    simp [upsert_invoice, headerRow, compute_totals, itemsSum, itemQty,
      itemPrice, mkItemRows, itemRowOf, emptyDB, pyStrip, stripLeft]
    norm_num [money, rhe]
  fetch_returns_saved_invoice (by decide) h

/-- Counterexample for C7: the generated number is not the plain
concatenation of prefix, date and hex suffix — the three parts are joined
with "-" separators. -/
theorem new_invoice_number_cex :
    new_invoice_number "INV" "20260101" "abcdef0123456789abcdef0123456789" =
      "INV-20260101-ABCDEF" ∧
    new_invoice_number "INV" "20260101" "abcdef0123456789abcdef0123456789" ≠
      "INV" ++ "20260101" ++
        pyUpper (pyTake 6 "abcdef0123456789abcdef0123456789") := by
  constructor <;> decide

/-- C7 (amended): the generated invoice number is the prefix, the current
date and the uppercased first 6 characters of the uuid hex string joined
by hyphens; when the uuid hex string is a lowercase hex string of at
least 6 characters (as `uuid.uuid4().hex` always is), the suffix is
exactly 6 uppercase hexadecimal characters. -/
theorem new_invoice_number_spec (pfx today uuidHex : String)
    (hlen : 6 ≤ uuidHex.length)
    (hhex : ∀ c ∈ uuidHex.data, c ∈ "0123456789abcdef".data) :
    new_invoice_number pfx today uuidHex =
      pfx ++ "-" ++ today ++ "-" ++ pyUpper (pyTake 6 uuidHex) ∧
    (pyUpper (pyTake 6 uuidHex)).length = 6 ∧
    ∀ c ∈ (pyUpper (pyTake 6 uuidHex)).data, c ∈ "0123456789ABCDEF".data := by
  refine ⟨rfl, ?_, ?_⟩
  · show ((uuidHex.data.take 6).map Char.toUpper).length = 6
    rw [List.length_map, List.length_take]
    exact min_eq_left hlen
  · intro c hc
    have hc2 : c ∈ (uuidHex.data.take 6).map Char.toUpper := hc
    rcases List.mem_map.mp hc2 with ⟨c0, hc0, rfl⟩
    have hc3 : c0 ∈ uuidHex.data := List.mem_of_mem_take hc0
    have hmap : ∀ c0 ∈ "0123456789abcdef".data,
        Char.toUpper c0 ∈ "0123456789ABCDEF".data := by decide
    exact hmap c0 (hhex c0 hc3)

/-- Witness for C7 (amended) at a concrete lowercase hex string. -/
theorem new_invoice_number_spec_witness :
    6 ≤ ("00ff3a7b2c4d" : String).length ∧
    (∀ c ∈ ("00ff3a7b2c4d" : String).data, c ∈ "0123456789abcdef".data) ∧
    (new_invoice_number "INV" "20260101" "00ff3a7b2c4d" =
       "INV" ++ "-" ++ "20260101" ++ "-" ++
         pyUpper (pyTake 6 "00ff3a7b2c4d") ∧
     (pyUpper (pyTake 6 "00ff3a7b2c4d")).length = 6 ∧
     ∀ c ∈ (pyUpper (pyTake 6 "00ff3a7b2c4d")).data,
       c ∈ "0123456789ABCDEF".data) :=
  ⟨by decide, by decide,
   new_invoice_number_spec "INV" "20260101" "00ff3a7b2c4d" (by decide)
     (by decide)⟩

theorem matchHere_no_dot :
    ∀ (pat : List Char), ('.' : Char) ∉ pat →
      ∀ s, matchHere pat s = pat.isPrefixOf s := by
  intro pat
  induction pat with
  | nil => intro _ s; cases s <;> rfl
  | cons p ps ih =>
    intro hd s
    have hp : (p == '.') = false :=
      beq_eq_false_iff_ne.mpr fun h => hd (h ▸ List.mem_cons_self _ _)
    have hps : ('.' : Char) ∉ ps := fun h => hd (List.mem_cons_of_mem _ h)
    cases s with
    | nil => rfl
    | cons c cs =>
      show ((p == '.' || p == c) && matchHere ps cs) =
        (p == c && ps.isPrefixOf cs)
      rw [hp, Bool.false_or, ih hps]

theorem regexSearch_no_dot {pat : List Char} (hd : ('.' : Char) ∉ pat) :
    ∀ s, regexSearch pat s = isSubOf pat s := by
  intro s
  induction s with
  | nil => exact matchHere_no_dot pat hd []
  | cons c cs ih =>
    show (matchHere pat (c :: cs) || regexSearch pat cs) =
      (pat.isPrefixOf (c :: cs) || isSubOf pat cs)
    rw [matchHere_no_dot pat hd, ih]

theorem toLower_eq_dot {c : Char} (h : c.toLower = '.') : c = '.' := by
  simp only [Char.toLower] at h
  split at h
  · exfalso
    rename_i hc
    obtain ⟨h1, h2⟩ := hc
    have h3 := congrArg Char.toNat h
    generalize hm : c.toNat = m at h1 h2 h3
    interval_cases m <;> exact absurd h3 (by decide)
  · exact h

theorem no_dot_pyLower {q : String}
    (hq : ∀ c ∈ q.data, c ∉ regexMetaChars) :
    ('.' : Char) ∉ (pyLower q).data := by
  intro hmem
  have hmem2 : ('.' : Char) ∈ q.data.map Char.toLower := hmem
  rcases List.mem_map.mp hmem2 with ⟨c, hc, hcl⟩
  have hcd : c = '.' := toLower_eq_dot hcl
  subst hcd
  exact hq _ hc (by decide)

/-- On search texts free of regex metacharacters, the pandas
`str.contains` mask is exactly case-insensitive substring occurrence. -/
theorem str_contains_ci_eq_containsCI {cell q : String}
    (hq : ∀ c ∈ q.data, c ∉ regexMetaChars) :
    str_contains_ci cell q = containsCI cell q := by
  unfold str_contains_ci containsCI
  rw [regexSearch_no_dot (no_dot_pyLower hq)]

/-- C8 (amended/restricted): for a non-empty search text containing no
regex metacharacter, a stored invoice appears in the filtered listing iff
the text occurs case-insensitively as a substring of its invoice number,
customer name, email or phone (logical OR).  (For other texts pandas
treats the search text as a regular expression, not as a literal
substring — see the counterexample.) -/
theorem text_filter_matches_iff_substring {q : String} {r : InvoiceRow}
    {db : DB} (hr : r ∈ db.invoices) (hq : q ≠ "")
    (hmeta : ∀ c ∈ q.data, c ∉ regexMetaChars) :
    (r ∈ filter_listing q db ↔
      (containsCI r.invoice_no q = true ∨
       containsCI r.customer_name q = true ∨
       containsCI r.customer_email q = true ∨
       containsCI r.customer_phone q = true)) := by
  unfold filter_listing
  rw [if_neg hq, List.mem_filter]
  unfold invoice_matches
  rw [str_contains_ci_eq_containsCI hmeta,
    str_contains_ci_eq_containsCI hmeta,
    str_contains_ci_eq_containsCI hmeta,
    str_contains_ci_eq_containsCI hmeta]
  simp [hr, or_assoc]

/-- Counterexample for C8: the search text "a.c" selects an invoice whose
email is "abc" (pandas treats it as a regex, where `.` matches any
character), although "a.c" is not a substring of any of the four
fields. -/
theorem text_filter_matches_cex :
    (⟨1, "N1", "d", "nm", "abc", "ph", "ad", 0, 0, 0, 0, 0, ""⟩ :
        InvoiceRow) ∈
      filter_listing "a.c"
        ⟨[⟨1, "N1", "d", "nm", "abc", "ph", "ad", 0, 0, 0, 0, 0, ""⟩],
         [], 2, 1⟩ ∧
    containsCI "N1" "a.c" = false ∧
    containsCI "nm" "a.c" = false ∧
    containsCI "abc" "a.c" = false ∧
    containsCI "ph" "a.c" = false := by
  refine ⟨by decide, by decide, by decide, by decide, by decide⟩

/-- Witness for C8 (amended) at the spec's own example: text "john"
matches an invoice whose email is "JOHN@x.com". -/
theorem text_filter_matches_iff_substring_witness :
    ((⟨1, "N2", "d", "nm", "JOHN@x.com", "ph", "ad", 0, 0, 0, 0, 0, ""⟩ :
        InvoiceRow) ∈
      (⟨[⟨1, "N2", "d", "nm", "JOHN@x.com", "ph", "ad", 0, 0, 0, 0, 0, ""⟩],
        [], 2, 1⟩ : DB).invoices) ∧
    ("john" : String) ≠ "" ∧
    (∀ c ∈ ("john" : String).data, c ∉ regexMetaChars) ∧
    ((⟨1, "N2", "d", "nm", "JOHN@x.com", "ph", "ad", 0, 0, 0, 0, 0, ""⟩ :
        InvoiceRow) ∈
      filter_listing "john"
        ⟨[⟨1, "N2", "d", "nm", "JOHN@x.com", "ph", "ad", 0, 0, 0, 0, 0, ""⟩],
         [], 2, 1⟩ ↔
      (containsCI "N2" "john" = true ∨
       containsCI "nm" "john" = true ∨
       containsCI "JOHN@x.com" "john" = true ∨
       containsCI "ph" "john" = true)) :=
  ⟨by decide, by decide, by decide,
   text_filter_matches_iff_substring (by decide) (by decide) (by decide)⟩

end InvoiceApp
